import Mathlib

/-!
Shallow embedding of the per-query benchmark pipeline of the repository
(src/data/recoll_benchmark.py and src/data/docfetcher_benchmark.py).

Python strings are modeled as Lean strings; the Python string operations
used by the scripts (str.replace, str.split with no argument, str.join,
the slice s[:-4]) are given explicit executable models below, operating on
the underlying character list.  Documents are identified by their filename
string (the scripts only ever use doc.filename / doc.getFilename()).

The search backend is external to the repository (recoll python module,
py4j gateway).  Per the capability contract it provides
search(text) -> ordered document sequence (recoll: query.fetchmany(K),
docfetcher: searcher.search(text)) and, for recoll, fetchone() which
yields the next document or signals end-of-results.  The pyrecoll
fetchone signals end-of-results by raising StopIteration; the harness
code `results.append(query.fetchone())` does not catch it, so an
end-of-results signal during backfill propagates as an exception.  The
backfill stream is modeled as a function from the call index to
`Option Filename`, `none` being the end-of-results signal, and the
dedup walk returns `Except Unit _`, `Except.error ()` being an
uncaught exception aborting the run.
-/

/-- Model of Python list.isPrefix-style matching used by str.replace:
does the pattern occur at the head of the character list? -/
def matchesAt : List Char → List Char → Bool
  | [], _ => true
  | _ :: _, [] => false
  | p :: ps, c :: cs => p = c && matchesAt ps cs

/-- Fuel-driven scan for Python str.replace: scan left to right, replace
each non-overlapping occurrence of the (nonempty) pattern.  The fuel is
instantiated with the string length, which always suffices since every
step consumes at least one character. -/
def pyReplaceGo (pat rep : List Char) : Nat → List Char → List Char
  | 0, s => s
  | n + 1, s =>
    match s with
    | [] => []
    | c :: rest =>
      if pat ≠ [] && matchesAt pat s then
        rep ++ pyReplaceGo pat rep n (s.drop pat.length)
      else
        c :: pyReplaceGo pat rep n rest

/-- Python `s.replace(pat, rep)`. -/
def pyReplace (s pat rep : String) : String :=
  ⟨pyReplaceGo pat.toList rep.toList s.toList.length s.toList⟩

/-- Python `s.split()` (no separator): split on runs of whitespace,
discarding empty pieces.  The accumulator holds the current word reversed. -/
def pySplitGo : List Char → List Char → List (List Char)
  | [], cur => if cur = [] then [] else [cur.reverse]
  | c :: rest, cur =>
    if c.isWhitespace then
      if cur = [] then pySplitGo rest [] else cur.reverse :: pySplitGo rest []
    else
      pySplitGo rest (c :: cur)

/-- Python `s.split()` on a string, yielding strings. -/
def pySplit (s : String) : List String :=
  (pySplitGo s.toList []).map String.mk

/-- Python `sep.join(xs)`. -/
def pyJoin (sep : String) : List String → String
  | [] => ""
  | [x] => x
  | x :: xs => x ++ sep ++ pyJoin sep xs

/-- Python `s[:-4]`: all characters but the last four (empty result when
the string has at most four characters, matching slice clamping). -/
def sliceToMinus4 (s : String) : String :=
  ⟨s.toList.take (s.toList.length - 4)⟩

/-- Constant from both scripts. -/
def MAX_RANK : Nat := 100

/-- recoll_benchmark.py lines 26-35: the chain of replaces applied to the
query text before splitting (strip punctuation, collapse dash sequences,
replace the path separator with a space). -/
def recollStripText (s : String) : String :=
  pyReplace (pyReplace (pyReplace (pyReplace (pyReplace (pyReplace
    (pyReplace (pyReplace (pyReplace s "." "") "," "") ":" "") "?" "")
    "(" "") ")" "") " - " " ") "---" " ") "/" " "

/-- recoll_benchmark.py lines 25-36: term list obtained by `.split()`. -/
def recollTerms (s : String) : List String :=
  pySplit (recollStripText s)

/-- recoll_benchmark.py line 25: the string passed to query.execute,
`" OR ".join(terms)`. -/
def recollNormalize (s : String) : String :=
  pyJoin " OR " (recollTerms s)

/-- docfetcher_benchmark.py line 28: `query_text.replace("/", " ")`. -/
def docfetcherNormalize (s : String) : String :=
  pyReplace s "/" " "

/-- A document is identified by its filename. -/
abbrev Filename := String

/-- recoll_benchmark.py lines 44-49, the dedup walk, as an index-based
loop over a growing list, which is CPython's semantics for
`for doc in results` with `results.append` in the body.  State: the pool
being walked, the current index, the number of fetchone calls made so
far, the set `results_ids` (as a list used only for membership) and the
accumulator `results_dedup`.  `backfill k` is the value of the (k+1)-st
`query.fetchone()` call; `none` is the end-of-results signal, which the
script does not catch, so it aborts the walk with `Except.error ()`.
The outer `Option` is fuel exhaustion: `none` means the walk has not
terminated within `fuel` iterations. -/
def dedupGo (backfill : Nat → Option Filename) :
    Nat → List Filename → Nat → Nat → List Filename → List Filename →
    Option (Except Unit (List Filename))
  | 0, _, _, _, _, _ => none
  | fuel + 1, pool, i, calls, results_ids, acc =>
    if h : i < pool.length then
      let d := pool.get ⟨i, h⟩
      if d ∈ results_ids then
        match backfill calls with
        | some nd => dedupGo backfill fuel (pool ++ [nd]) (i + 1) (calls + 1) results_ids acc
        | none => some (Except.error ())
      else
        dedupGo backfill fuel pool (i + 1) calls (d :: results_ids) (acc ++ [d])
    else
      some (Except.ok acc)

/-- The dedup pass applied to the initial batch `results = query.fetchmany(MAX_RANK)`. -/
def results_dedup (backfill : Nat → Option Filename) (fuel : Nat)
    (batch : List Filename) : Option (Except Unit (List Filename)) :=
  dedupGo backfill fuel batch 0 0 [] []

/-- One output row, recoll_benchmark.py line 57 / docfetcher_benchmark.py
lines 94-102: (query_id, 0, doc.filename[:-4], i, MAX_RANK - i, 0, duration_s). -/
structure ResultRow where
  query_id : String
  iteration : Nat
  doc_id : String
  rank : Nat
  score : Int
  run_tag : Nat
  duration_s : ℚ
deriving DecidableEq, Repr

/-- The writer loop shared by both scripts: `for i, doc in enumerate(...)`
emitting one row per surviving document. -/
def writeRows (qid : String) (docs : List Filename) (dur : ℚ) : List ResultRow :=
  docs.enum.map fun p => ⟨qid, 0, sliceToMinus4 p.2, p.1, (MAX_RANK : Int) - p.1, 0, dur⟩

/-- Per-query pipeline of docfetcher_benchmark.py lines 88-103: truncate
the backend results to MAX_RANK and write rows; t1 and t2 are the two
perf_counter samples taken around the search, duration_s = t2 - t1. -/
def docfetcherQuery (searchResults : List Filename) (qid : String)
    (t1 t2 : ℚ) : List ResultRow :=
  writeRows qid (searchResults.take MAX_RANK) (t2 - t1)

/-- Per-query pipeline of recoll_benchmark.py lines 21-58: dedup the
initial batch, then write rows; t1 and t2 are the perf_counter samples
taken before the query is executed and after dedup completes. -/
def recollQuery (backfill : Nat → Option Filename) (fuel : Nat)
    (batch : List Filename) (qid : String) (t1 t2 : ℚ) :
    Option (Except Unit (List ResultRow)) :=
  match results_dedup backfill fuel batch with
  | none => none
  | some (Except.error e) => some (Except.error e)
  | some (Except.ok acc) => some (Except.ok (writeRows qid acc (t2 - t1)))

/-- Outcome of a whole harness run: normal completion, abort on a
malformed input row (IndexError on query_row[1]), abort on an uncaught
end-of-results signal during backfill (StopIteration from fetchone), or
divergence of the dedup walk (fuel exhausted). -/
inductive RunStatus where
  | finished
  | malformedInput
  | backendEnd
  | diverged
deriving DecidableEq, Repr

/-- recoll_benchmark.py lines 18-19 / docfetcher_benchmark.py lines 24-25:
`query_id = query_row[0]; query_text = query_row[1]`.  A row with fewer
than two columns raises IndexError (modeled as `Except.error ()`); extra
columns are ignored. -/
def parseQueryRow (row : List String) : Except Unit (String × String) :=
  match row with
  | qid :: text :: _ => Except.ok (qid, text)
  | _ => Except.error ()

/-- The query loop of recoll_benchmark.py lines 17-60.  `search t` is the
initial batch `query.fetchmany(MAX_RANK)` the backend returns for the
normalized query string t; `backfill t` is its fetchone stream; `clock`
is the monotonic perf_counter, sampled twice per query (samples 2k and
2k+1 for the k-th query).  Returns the rows written so far (output is
flushed incrementally) and the final status; any uncaught exception or
divergence stops the run with no further rows. -/
def recollRun (search : String → List Filename)
    (backfill : String → Nat → Option Filename) (clock : Nat → ℚ)
    (fuel : Nat) : List (List String) → Nat → List ResultRow × RunStatus
  | [], _ => ([], RunStatus.finished)
  | row :: rest, k =>
    match parseQueryRow row with
    | Except.error _ => ([], RunStatus.malformedInput)
    | Except.ok (qid, text) =>
      let norm := recollNormalize text
      match results_dedup (backfill norm) fuel (search norm) with
      | none => ([], RunStatus.diverged)
      | some (Except.error _) => ([], RunStatus.backendEnd)
      | some (Except.ok acc) =>
        let rows := writeRows qid acc (clock (2 * k + 1) - clock (2 * k))
        let next := recollRun search backfill clock fuel rest (k + 1)
        (rows ++ next.1, next.2)

/-- The query loop of docfetcher_benchmark.py lines 84-105.  `search t`
is the sequence `searcher.search(t)` returns for the normalized query
string t; the script truncates it to MAX_RANK and performs no
deduplication. -/
def docfetcherRun (search : String → List Filename) (clock : Nat → ℚ) :
    List (List String) → Nat → List ResultRow × RunStatus
  | [], _ => ([], RunStatus.finished)
  | row :: rest, k =>
    match parseQueryRow row with
    | Except.error _ => ([], RunStatus.malformedInput)
    | Except.ok (qid, text) =>
      let rows := docfetcherQuery (search (docfetcherNormalize text)) qid
        (clock (2 * k)) (clock (2 * k + 1))
      let next := docfetcherRun search clock rest (k + 1)
      (rows ++ next.1, next.2)

/-! Helper lemmas about the dedup walk. -/

/-- On normal termination the accepted count equals the starting count
plus the part of the pool not yet walked: every walked element is either
accepted or replaced by exactly one backfilled element. -/
theorem dedupGo_ok_length (backfill : Nat → Option Filename) :
    ∀ (fuel : Nat) (pool : List Filename) (i calls : Nat)
      (ids acc res : List Filename),
      dedupGo backfill fuel pool i calls ids acc = some (Except.ok res) →
      res.length = acc.length + (pool.length - i) := by
  intro fuel
  induction fuel with
  | zero =>
    intro pool i calls ids acc res h
    simp [dedupGo] at h
  | succ m ih =>
    intro pool i calls ids acc res h
    simp only [dedupGo] at h
    by_cases hi : i < pool.length
    · rw [dif_pos hi] at h
      by_cases hd : pool.get ⟨i, hi⟩ ∈ ids
      · rw [if_pos hd] at h
        cases hb : backfill calls with
        | none =>
          rw [hb] at h
          simp at h
        | some nd =>
          rw [hb] at h
          have := ih (pool ++ [nd]) (i + 1) (calls + 1) ids acc res h
          simp only [List.length_append, List.length_singleton] at this
          omega
      · rw [if_neg hd] at h
        have := ih pool (i + 1) calls (pool.get ⟨i, hi⟩ :: ids)
          (acc ++ [pool.get ⟨i, hi⟩]) res h
        simp only [List.length_append, List.length_singleton] at this
        omega
    · rw [dif_neg hi] at h
      simp only [Option.some.injEq, Except.ok.injEq] at h
      subst h
      omega

/-- The accepted list stays duplicate-free: a document is accepted only
when its filename is not in results_ids, and every accepted filename is
in results_ids. -/
theorem dedupGo_ok_nodup (backfill : Nat → Option Filename) :
    ∀ (fuel : Nat) (pool : List Filename) (i calls : Nat)
      (ids acc res : List Filename),
      acc.Nodup → (∀ x ∈ acc, x ∈ ids) →
      dedupGo backfill fuel pool i calls ids acc = some (Except.ok res) →
      res.Nodup := by
  intro fuel
  induction fuel with
  | zero =>
    intro pool i calls ids acc res _ _ h
    simp [dedupGo] at h
  | succ m ih =>
    intro pool i calls ids acc res hnd hsub h
    simp only [dedupGo] at h
    by_cases hi : i < pool.length
    · rw [dif_pos hi] at h
      by_cases hd : pool.get ⟨i, hi⟩ ∈ ids
      · rw [if_pos hd] at h
        cases hb : backfill calls with
        | none =>
          rw [hb] at h
          simp at h
        | some nd =>
          rw [hb] at h
          exact ih (pool ++ [nd]) (i + 1) (calls + 1) ids acc res hnd hsub h
      · rw [if_neg hd] at h
        refine ih pool (i + 1) calls (pool.get ⟨i, hi⟩ :: ids)
          (acc ++ [pool.get ⟨i, hi⟩]) res ?_ ?_ h
        · have hna : pool.get ⟨i, hi⟩ ∉ acc := fun hmem => hd (hsub _ hmem)
          simp [List.nodup_append, hnd]
          simpa using hna
        · intro x hx
          rcases List.mem_append.mp hx with hx1 | hx2
          · exact List.mem_cons_of_mem _ (hsub x hx1)
          · rcases List.mem_singleton.mp hx2 with rfl
            exact List.mem_cons_self _ _
    · rw [dif_neg hi] at h
      simp only [Option.some.injEq, Except.ok.injEq] at h
      subst h
      exact hnd

/-- Divergence of the dedup walk on an all-duplicate pool: when the
current element is a duplicate and every fetchone call returns that same
document again, the pool grows in step with the index, so no amount of
fuel completes the walk. -/
theorem dedupGo_constant_none :
    ∀ (fuel n i calls : Nat) (ids acc : List Filename),
      "D1" ∈ ids → i < n →
      dedupGo (fun _ => some "D1") fuel (List.replicate n "D1") i calls ids acc =
        none := by
  intro fuel
  induction fuel with
  | zero =>
    intro n i calls ids acc _ _
    rfl
  | succ m ih =>
    intro n i calls ids acc hmem hlt
    have hi : i < (List.replicate n ("D1" : Filename)).length := by
      simpa using hlt
    simp only [dedupGo]
    rw [dif_pos hi]
    rw [List.get_replicate]
    rw [if_pos hmem]
    show dedupGo (fun _ => some "D1") m
      (List.replicate n "D1" ++ ["D1"]) (i + 1) (calls + 1) ids acc = none
    rw [← List.replicate_succ']
    exact ih (n + 1) (i + 1) (calls + 1) ids acc hmem (Nat.succ_lt_succ hlt)

/-! Helper lemmas about the writer. -/

/-- writeRows emits one row per document. -/
theorem writeRows_length (qid : String) (docs : List Filename) (dur : ℚ) :
    (writeRows qid docs dur).length = docs.length := by
  simp [writeRows]

/-- The ranks are the enumeration indices. -/
theorem writeRows_map_rank (qid : String) (docs : List Filename) (dur : ℚ) :
    (writeRows qid docs dur).map ResultRow.rank = List.range docs.length := by
  rw [writeRows, List.map_map]
  exact List.enum_map_fst docs

/-- Every emitted row carries the duration computed for its query and a
score determined by its rank. -/
theorem writeRows_fields (qid : String) (docs : List Filename) (dur : ℚ) :
    ∀ r ∈ writeRows qid docs dur,
      r.duration_s = dur ∧ r.score = (MAX_RANK : Int) - r.rank := by
  intro r hr
  simp only [writeRows, List.mem_map] at hr
  obtain ⟨p, _, rfl⟩ := hr
  exact ⟨rfl, rfl⟩

/-! Helper lemmas about the query loops. -/

/-- A row with fewer than two columns fails to parse (IndexError on
query_row[1]). -/
theorem parseQueryRow_short {row : List String} (h : row.length < 2) :
    parseQueryRow row = Except.error () := by
  cases row with
  | nil => rfl
  | cons a t =>
    cases t with
    | nil => rfl
    | cons b t2 =>
      simp only [List.length_cons] at h
      omega

/-- If the recoll loop finishes a list of well-formed queries, then with
a malformed row appended after them it emits exactly the rows of those
queries and aborts; nothing after the malformed row is processed. -/
theorem recollRun_append_malformed (search : String → List Filename)
    (backfill : String → Nat → Option Filename) (clock : Nat → ℚ) (fuel : Nat) :
    ∀ (good : List (List String)) (bad : List String)
      (rest : List (List String)) (k : Nat),
      bad.length < 2 →
      (recollRun search backfill clock fuel good k).2 = RunStatus.finished →
      recollRun search backfill clock fuel (good ++ bad :: rest) k =
        ((recollRun search backfill clock fuel good k).1,
          RunStatus.malformedInput) := by
  intro good
  induction good with
  | nil =>
    intro bad rest k hbad _
    simp only [List.nil_append]
    simp only [recollRun]
    rw [parseQueryRow_short hbad]
  | cons row g ihg =>
    intro bad rest k hbad hfin
    simp only [List.cons_append]
    simp only [recollRun] at hfin ⊢
    cases hq : parseQueryRow row with
    | error e => rfl
    | ok p =>
      obtain ⟨qid, text⟩ := p
      rw [hq] at hfin
      simp only [] at hfin ⊢
      cases hd : results_dedup (backfill (recollNormalize text)) fuel
          (search (recollNormalize text)) with
      | none =>
        rw [hd] at hfin
        simp at hfin
      | some r =>
        cases r with
        | error e =>
          rw [hd] at hfin
          simp at hfin
        | ok acc =>
          rw [hd] at hfin
          simp only [] at hfin ⊢
          rw [ihg bad rest (k + 1) hbad hfin]

/-- Same statement for the docfetcher loop. -/
theorem docfetcherRun_append_malformed (search : String → List Filename)
    (clock : Nat → ℚ) :
    ∀ (good : List (List String)) (bad : List String)
      (rest : List (List String)) (k : Nat),
      bad.length < 2 →
      (docfetcherRun search clock good k).2 = RunStatus.finished →
      docfetcherRun search clock (good ++ bad :: rest) k =
        ((docfetcherRun search clock good k).1, RunStatus.malformedInput) := by
  intro good
  induction good with
  | nil =>
    intro bad rest k hbad _
    simp only [List.nil_append]
    simp only [docfetcherRun]
    rw [parseQueryRow_short hbad]
  | cons row g ihg =>
    intro bad rest k hbad hfin
    simp only [List.cons_append]
    simp only [docfetcherRun] at hfin ⊢
    cases hq : parseQueryRow row with
    | error e => rfl
    | ok p =>
      obtain ⟨qid, text⟩ := p
      rw [hq] at hfin
      simp only [] at hfin ⊢
      rw [ihg bad rest (k + 1) hbad hfin]

/-- Inversion for a successful per-query recoll pipeline: the rows are
exactly the writer applied to some successfully deduplicated batch. -/
theorem recollQuery_ok (backfill : Nat → Option Filename) (fuel : Nat)
    (batch : List Filename) (qid : String) (t1 t2 : ℚ) (rows : List ResultRow)
    (h : recollQuery backfill fuel batch qid t1 t2 = some (Except.ok rows)) :
    ∃ acc, results_dedup backfill fuel batch = some (Except.ok acc) ∧
      rows = writeRows qid acc (t2 - t1) := by
  unfold recollQuery at h
  cases hd : results_dedup backfill fuel batch with
  | none =>
    rw [hd] at h
    simp at h
  | some x =>
    cases x with
    | error e =>
      rw [hd] at h
      simp at h
    | ok acc =>
      rw [hd] at h
      simp only [] at h
      simp only [Option.some.injEq, Except.ok.injEq] at h
      exact ⟨acc, rfl, h.symm⟩

/-! The claims. -/

/-- Claim C1, counterexample.  The claim states that for the initial
batch [D1, D2, D1, D3] with target K=3, where backfill yields D4 after
the second duplicate, the accepted order is exactly [D1, D2, D3] and the
backfilled D4 is not included.  On the code the walk has no stop-at-K
condition at all: it walks the extended pool to its end, so D4 is walked
and accepted, giving [D1, D2, D3, D4]. -/
theorem claim_C1_counterexample :
    results_dedup (fun n => if n = 0 then some "D4" else none) 10
        ["D1", "D2", "D1", "D3"] =
      some (Except.ok ["D1", "D2", "D3", "D4"]) ∧
    "D4" ∈ (["D1", "D2", "D3", "D4"] : List Filename) ∧
    (["D1", "D2", "D3", "D4"] : List Filename) ≠ ["D1", "D2", "D3"] :=
  ⟨rfl, by decide, by decide⟩

/-- Claim C1, amended: the dedup walk stops only when the (possibly
extended) pool is exhausted, never because K unique documents have been
accepted; for the batch [D1, D2, D1, D3] where backfill yields D4, the
accepted order is [D1, D2, D3, D4] with ranks 0, 1, 2, 3, the backfilled
D4 included. -/
theorem claim_C1_amended :
    results_dedup (fun n => if n = 0 then some "D4" else none) 10
        ["D1", "D2", "D1", "D3"] =
      some (Except.ok ["D1", "D2", "D3", "D4"]) ∧
    (writeRows "q" ["D1", "D2", "D3", "D4"] 0).map ResultRow.rank =
      [0, 1, 2, 3] :=
  ⟨rfl, by decide⟩

/-- Claim C2, counterexample.  The claim states that when the backend
signals end-of-results during backfill for the batch [D1, D1, D1], the
accepted set is [D1], one row is emitted and no error is raised.  On the
code the end-of-results signal from fetchone is never handled
(pyrecoll raises StopIteration, and `results.append(query.fetchone())`
is not guarded), so the run aborts with zero rows emitted for the
query. -/
theorem claim_C2_counterexample :
    recollRun (fun _ => ["D1", "D1", "D1"]) (fun _ _ => none)
        (fun n => (n : ℚ)) 10 [["1", "q"]] 0 = ([], RunStatus.backendEnd) ∧
    RunStatus.backendEnd ≠ RunStatus.finished ∧
    ([] : List ResultRow).length ≠ 1 :=
  ⟨rfl, by decide, by decide⟩

/-- Claim C2, amended: if the backend signals end-of-results while
backfilling, the dedup walk aborts with an uncaught exception (no rows
are emitted for the query and the run stops); for the batch
[D1, D1, D1] with an exhausted backfill stream the walk raises on the
very first backfill attempt. -/
theorem claim_C2_amended :
    results_dedup (fun _ => none) 10 ["D1", "D1", "D1"] =
      some (Except.error ()) :=
  rfl

/-- Claim C3: the claim (and the spec) require a bounded number of
backfill attempts per query so that deduplication terminates for every
backend behavior.  The code has no such bound: on a backend that keeps
returning the same duplicate identifier from backfill, the walk extends
the pool as fast as it advances and never terminates - for every fuel
bound the walk fails to complete.  This confirms the defect the spec
itself flags; the code is the slip. -/
theorem claim_C3_nonterminating (fuel : Nat) :
    results_dedup (fun _ => some "D1") fuel ["D1", "D1"] = none := by
  cases fuel with
  | zero => rfl
  | succ m =>
    show dedupGo (fun _ => some "D1") m ["D1", "D1"] 1 0 ["D1"] ["D1"] = none
    exact dedupGo_constant_none m 2 1 0 ["D1"] ["D1"] (by decide) (by decide)

/-- Claim C4, counterexample.  The claim states that in either harness
no two rows of a query share the same doc_id, regardless of duplicates
in the backend sequence.  The docfetcher harness performs no
deduplication at all: a backend sequence [a.txt, a.txt] yields two rows
both with doc_id "a". -/
theorem claim_C4_counterexample :
    (docfetcherQuery ["a.txt", "a.txt"] "1" 0 1).map ResultRow.doc_id =
      ["a", "a"] ∧
    ¬ ((docfetcherQuery ["a.txt", "a.txt"] "1" 0 1).map
        ResultRow.doc_id).Nodup :=
  ⟨by decide, by decide⟩

/-- Claim C4, amended: only the recoll harness deduplicates, and it
deduplicates by full filename (while doc_id drops the last four
characters): whenever its dedup walk completes normally the accepted
filenames are pairwise distinct.  The docfetcher harness emits backend
duplicates verbatim, and even in the recoll harness two distinct
filenames sharing a stem can collide after the doc_id truncation. -/
theorem claim_C4_amended (backfill : Nat → Option Filename) (fuel : Nat)
    (batch acc : List Filename)
    (h : results_dedup backfill fuel batch = some (Except.ok acc)) :
    acc.Nodup :=
  dedupGo_ok_nodup backfill fuel batch 0 0 [] [] acc List.nodup_nil
    (by simp) h

/-- Claim C4, witness for the amended theorem at a concrete input. -/
theorem claim_C4_witness :
    results_dedup (fun _ => some "Z") 10 ["A", "B", "A"] =
      some (Except.ok ["A", "B", "Z"]) ∧
    (["A", "B", "Z"] : List Filename).Nodup :=
  ⟨rfl, claim_C4_amended (fun _ => some "Z") 10 ["A", "B", "A"]
    ["A", "B", "Z"] rfl⟩

/-- Claim C5: MAX_RANK is 100 and, for every query, at most MAX_RANK
rows are emitted (the count is a Nat, so it is at least 0).  The
docfetcher harness truncates the backend sequence to MAX_RANK; the
recoll harness fetches an initial batch of at most MAX_RANK documents
(the fetchmany(MAX_RANK) contract, the hypothesis on batch) and, on
normal termination, accepts exactly one document per initial batch
element. -/
theorem claim_C5 (backfill : Nat → Option Filename) (fuel : Nat)
    (batch docs : List Filename) (qid : String) (t1 t2 : ℚ)
    (rows : List ResultRow)
    (hbatch : batch.length ≤ MAX_RANK)
    (hrun : recollQuery backfill fuel batch qid t1 t2 =
      some (Except.ok rows)) :
    MAX_RANK = 100 ∧ (docfetcherQuery docs qid t1 t2).length ≤ MAX_RANK ∧
      rows.length ≤ MAX_RANK := by
  refine ⟨rfl, ?_, ?_⟩
  · show (writeRows qid (docs.take MAX_RANK) (t2 - t1)).length ≤ MAX_RANK
    rw [writeRows_length, List.length_take]
    exact Nat.min_le_left _ _
  · obtain ⟨acc, hacc, hrows⟩ := recollQuery_ok backfill fuel batch qid
      t1 t2 rows hrun
    have hlen := dedupGo_ok_length backfill fuel batch 0 0 [] [] acc hacc
    rw [hrows, writeRows_length]
    simp only [List.length_nil] at hlen
    omega

/-- Claim C5, witness at a concrete input. -/
theorem claim_C5_witness :
    (["A", "B", "A"] : List Filename).length ≤ MAX_RANK ∧
    recollQuery (fun n => if n = 0 then some "Z" else none) 10
        ["A", "B", "A"] "1" 0 1 =
      some (Except.ok (writeRows "1" ["A", "B", "Z"] (1 - 0))) ∧
    (MAX_RANK = 100 ∧
      (docfetcherQuery ["X.txt"] "1" 0 1).length ≤ MAX_RANK ∧
      (writeRows "1" ["A", "B", "Z"] (1 - 0)).length ≤ MAX_RANK) :=
  ⟨by decide, rfl,
    claim_C5 (fun n => if n = 0 then some "Z" else none) 10 ["A", "B", "A"]
      ["X.txt"] "1" 0 1 (writeRows "1" ["A", "B", "Z"] (1 - 0))
      (by decide) rfl⟩

/-- Claim C6: in both harnesses rows are written by the same enumerate
loop, so for a query emitting n rows the ranks are exactly 0..n-1 in
emission order, and every row has score = MAX_RANK - rank. -/
theorem claim_C6 (qid : String) (docs : List Filename) (dur : ℚ) :
    (writeRows qid docs dur).map ResultRow.rank =
      List.range (writeRows qid docs dur).length ∧
    ∀ r ∈ writeRows qid docs dur, r.score = (MAX_RANK : Int) - r.rank := by
  constructor
  · rw [writeRows_map_rank, writeRows_length]
  · intro r hr
    exact (writeRows_fields qid docs dur r hr).2

/-- Claim C7: term-OR normalization maps "What is (the) cost?" to the
term list [What, is, the, cost] joined with the OR operator, and both
normalization policies replace the path separator with whitespace, so
"a/b/c" becomes "a b c". -/
theorem claim_C7 :
    recollTerms "What is (the) cost?" = ["What", "is", "the", "cost"] ∧
    recollNormalize "What is (the) cost?" = "What OR is OR the OR cost" ∧
    recollStripText "a/b/c" = "a b c" ∧
    docfetcherNormalize "a/b/c" = "a b c" :=
  ⟨by decide, by decide, by decide, by decide⟩

/-- Claim C8: a query row with fewer than two tab-separated columns
aborts the whole run in either harness: the rows already emitted for
earlier queries remain, and neither the offending query nor any later
query emits rows. -/
theorem claim_C8 (search : String → List Filename)
    (backfill : String → Nat → Option Filename) (clock : Nat → ℚ)
    (fuel : Nat) (search2 : String → List Filename) (clock2 : Nat → ℚ)
    (good : List (List String)) (bad : List String)
    (rest : List (List String)) (k k2 : Nat)
    (hbad : bad.length < 2)
    (h1 : (recollRun search backfill clock fuel good k).2 =
      RunStatus.finished)
    (h2 : (docfetcherRun search2 clock2 good k2).2 = RunStatus.finished) :
    recollRun search backfill clock fuel (good ++ bad :: rest) k =
      ((recollRun search backfill clock fuel good k).1,
        RunStatus.malformedInput) ∧
    docfetcherRun search2 clock2 (good ++ bad :: rest) k2 =
      ((docfetcherRun search2 clock2 good k2).1,
        RunStatus.malformedInput) :=
  ⟨recollRun_append_malformed search backfill clock fuel good bad rest k
      hbad h1,
    docfetcherRun_append_malformed search2 clock2 good bad rest k2 hbad h2⟩

/-- Claim C8, witness at a concrete input. -/
theorem claim_C8_witness :
    (["2"] : List String).length < 2 ∧
    (recollRun (fun _ => ["A.txt"]) (fun _ _ => none) (fun n => (n : ℚ)) 10
        [["1", "foo"]] 0).2 = RunStatus.finished ∧
    (docfetcherRun (fun _ => ["A.txt"]) (fun n => (n : ℚ))
        [["1", "foo"]] 0).2 = RunStatus.finished ∧
    (recollRun (fun _ => ["A.txt"]) (fun _ _ => none) (fun n => (n : ℚ)) 10
        ([["1", "foo"]] ++ ["2"] :: []) 0 =
      ((recollRun (fun _ => ["A.txt"]) (fun _ _ => none) (fun n => (n : ℚ))
          10 [["1", "foo"]] 0).1, RunStatus.malformedInput) ∧
    docfetcherRun (fun _ => ["A.txt"]) (fun n => (n : ℚ))
        ([["1", "foo"]] ++ ["2"] :: []) 0 =
      ((docfetcherRun (fun _ => ["A.txt"]) (fun n => (n : ℚ))
          [["1", "foo"]] 0).1, RunStatus.malformedInput)) :=
  ⟨by decide, rfl, rfl,
    claim_C8 (fun _ => ["A.txt"]) (fun _ _ => none) (fun n => (n : ℚ)) 10
      (fun _ => ["A.txt"]) (fun n => (n : ℚ)) [["1", "foo"]] ["2"] [] 0 0
      (by decide) rfl rfl⟩

/-- Claim C9: with the two monotonic-clock samples t1 then t2 taken
around search plus dedup (hypothesis t1 le t2, the monotonic-clock
contract of perf_counter), every row of a query carries the same
duration_s = t2 - t1, which is non-negative, in both harnesses. -/
theorem claim_C9 (t1 t2 : ℚ) (h : t1 ≤ t2) :
    (∀ (docs : List Filename) (qid : String) (r : ResultRow),
      r ∈ docfetcherQuery docs qid t1 t2 →
      r.duration_s = t2 - t1 ∧ 0 ≤ r.duration_s) ∧
    (∀ (backfill : Nat → Option Filename) (fuel : Nat)
      (batch : List Filename) (qid : String) (rows : List ResultRow)
      (r : ResultRow),
      recollQuery backfill fuel batch qid t1 t2 = some (Except.ok rows) →
      r ∈ rows → r.duration_s = t2 - t1 ∧ 0 ≤ r.duration_s) := by
  have hd : (0 : ℚ) ≤ t2 - t1 := sub_nonneg.mpr h
  constructor
  · intro docs qid r hr
    have hf := writeRows_fields qid (docs.take MAX_RANK) (t2 - t1) r hr
    exact ⟨hf.1, by rw [hf.1]; exact hd⟩
  · intro backfill fuel batch qid rows r hrun hr
    obtain ⟨acc, _, hrows⟩ := recollQuery_ok backfill fuel batch qid
      t1 t2 rows hrun
    rw [hrows] at hr
    have hf := writeRows_fields qid acc (t2 - t1) r hr
    exact ⟨hf.1, by rw [hf.1]; exact hd⟩

/-- Claim C9, witness at a concrete input. -/
theorem claim_C9_witness :
    (0 : ℚ) ≤ 1 ∧
    ((⟨"1", 0, "A", 0, 100 - 0, 0, 1 - 0⟩ : ResultRow).duration_s = 1 - 0 ∧
      0 ≤ (⟨"1", 0, "A", 0, 100 - 0, 0, 1 - 0⟩ : ResultRow).duration_s) :=
  ⟨by norm_num,
    (claim_C9 0 1 (by norm_num)).1 ["A.txt"] "1"
      ⟨"1", 0, "A", 0, 100 - 0, 0, 1 - 0⟩
      (by show _ ∈ [(⟨"1", 0, "A", 0, 100 - 0, 0, 1 - 0⟩ : ResultRow)]
          exact List.mem_singleton.mpr rfl)⟩

/-- Claim C10: in the deduplicating harness each backfill fetch only
replaces a discarded duplicate, so when the walk terminates normally the
accepted count equals the initial batch size exactly (every duplicate
was replaced), and in particular never exceeds it. -/
theorem claim_C10 (backfill : Nat → Option Filename) (fuel : Nat)
    (batch acc : List Filename)
    (h : results_dedup backfill fuel batch = some (Except.ok acc)) :
    acc.length = batch.length := by
  have hlen := dedupGo_ok_length backfill fuel batch 0 0 [] [] acc h
  simpa using hlen

/-- Claim C10, witness at a concrete input. -/
theorem claim_C10_witness :
    results_dedup (fun _ => some "Y") 10 ["P", "Q", "P", "R"] =
      some (Except.ok ["P", "Q", "R", "Y"]) ∧
    (["P", "Q", "R", "Y"] : List Filename).length =
      (["P", "Q", "P", "R"] : List Filename).length :=
  ⟨rfl, claim_C10 (fun _ => some "Y") 10 ["P", "Q", "P", "R"]
    ["P", "Q", "R", "Y"] rfl⟩

